import Mathlib

/-!
Shallow embedding of the core of `weather-tui` (`src/main.rs`): the modal
text-input engine, the suggestion coordinator, the history ring and the
top-level application state machine.

Rust strings are modelled as `List Char` (Rust `String` is UTF-8; all cursor
arithmetic in the source is by character position, re-deriving byte offsets via
`char_to_byte_pos`).  Rust's `String::len` is the UTF-8 byte count, modelled by
`byteLen` below via `Char.utf8Size`.  The `f64` coordinate and weather payload
fields are never inspected or computed on by the core (they are fetched,
stored and rendered only), so they are carried as `Int` placeholders; no claim
depends on their arithmetic.
-/

namespace WeatherTui

/-- Mode enum from the source: Normal / Insert. -/
inductive Mode where
  | Normal
  | Insert
deriving DecidableEq, Repr

/-- AppState enum from the source: Input / Loading / Display / Error. -/
inductive AppState where
  | Input
  | Loading
  | Display
  | Error
deriving DecidableEq, Repr

/-- FocusedPane enum from the source: Search / History. -/
inductive FocusedPane where
  | Search
  | History
deriving DecidableEq, Repr

/-- GeoLocation from the source.  `latitude`/`longitude` are `f64` in the
source; the core never computes on them, so they are modelled as inert `Int`
payload. -/
structure GeoLocation where
  name : List Char
  latitude : Int
  longitude : Int
  country : List Char
  admin1 : Option (List Char)
deriving DecidableEq, Repr

instance : Inhabited GeoLocation := ⟨⟨[], 0, 0, [], none⟩⟩

/-- CurrentWeather from the source; the `f64` fields are inert payload
(modelled as `Int`), `relative_humidity_2m` and `weather_code` are `u32`. -/
structure CurrentWeather where
  temperature_2m : Int
  relative_humidity_2m : Nat
  apparent_temperature : Int
  precipitation : Int
  weather_code : Nat
  wind_speed_10m : Int
  pressure_msl : Int
deriving DecidableEq, Repr

/-- CurrentUnits from the source. -/
structure CurrentUnits where
  temperature_2m : List Char
  wind_speed_10m : List Char
  pressure_msl : List Char
deriving DecidableEq, Repr

/-- WeatherResponse from the source. -/
structure WeatherResponse where
  current : CurrentWeather
  current_units : CurrentUnits
deriving DecidableEq, Repr

/-- WeatherData from the source: a location plus its weather response. -/
structure WeatherData where
  location : GeoLocation
  weather : WeatherResponse
deriving DecidableEq, Repr

/-- HistoryEntry from the source (`timestamp` is `u64` seconds; it is only
stored and compared, never wraps, so `Nat`). -/
structure HistoryEntry where
  query : List Char
  timestamp : Nat
deriving DecidableEq, Repr

instance : Inhabited HistoryEntry := ⟨⟨[], 0⟩⟩

/-- UTF-8 byte length of a buffer, the embedding of Rust `String::len`. -/
def byteLen (s : List Char) : Nat :=
  (s.map Char.utf8Size).sum

/-- Insertion at a character index, the embedding of
`char_to_byte_pos` + `String::insert`: for `p ≥ s.length` the byte position
returned by `char_to_byte_pos` is the end of the string, so the character is
appended. -/
def insertAtChar (s : List Char) (p : Nat) (c : Char) : List Char :=
  match s, p with
  | [], _ => [c]
  | xs, 0 => c :: xs
  | x :: xs, n + 1 => x :: insertAtChar xs n c

/-- Removal at a character index, the embedding of
`char_to_byte_pos` + `String::remove`.  Rust `String::remove` panics when the
index is at or past the end; every call site in the source is guarded so that
the index is strictly in range, where this total model agrees with it. -/
def removeAtChar : List Char → Nat → List Char
  | [], _ => []
  | _ :: xs, 0 => xs
  | x :: xs, n + 1 => x :: removeAtChar xs n

/-- Struct App from the source.  All strings are `List Char`. -/
structure App where
  input : List Char
  cursor_position : Nat
  state : AppState
  mode : Mode
  weather_data : Option WeatherData
  error_message : List Char
  search_history : List HistoryEntry
  autocomplete_suggestions : List GeoLocation
  selected_suggestion : Nat
  show_autocomplete : Bool
  last_autocomplete_query : List Char
  focused_pane : FocusedPane
  selected_history_index : Nat
deriving DecidableEq, Repr

/-- App::new from the source.  `load_history()` reads a file; its result (an
arbitrary list, empty on absence or corruption) is passed in as a parameter. -/
def App.new (history : List HistoryEntry) : App where
  input := []
  cursor_position := 0
  state := AppState.Input
  mode := Mode.Normal
  weather_data := none
  error_message := []
  search_history := history
  autocomplete_suggestions := []
  selected_suggestion := 0
  show_autocomplete := false
  last_autocomplete_query := []
  focused_pane := FocusedPane.Search
  selected_history_index := 0

/-- App::char_count from the source: `input.chars().count()`. -/
def App.char_count (a : App) : Nat :=
  a.input.length

/-- App::move_cursor_left from the source. -/
def App.move_cursor_left (a : App) : App :=
  if a.cursor_position > 0 then
    { a with cursor_position := a.cursor_position - 1 }
  else a

/-- App::move_cursor_right from the source. -/
def App.move_cursor_right (a : App) : App :=
  if a.cursor_position < a.char_count then
    { a with cursor_position := a.cursor_position + 1 }
  else a

/-- App::move_cursor_start from the source. -/
def App.move_cursor_start (a : App) : App :=
  { a with cursor_position := 0 }

/-- App::move_cursor_end from the source. -/
def App.move_cursor_end (a : App) : App :=
  { a with cursor_position := a.char_count }

/-- App::delete_char from the source (delete forward under the cursor). -/
def App.delete_char (a : App) : App :=
  if a.cursor_position < a.char_count then
    { a with input := removeAtChar a.input a.cursor_position }
  else a

/-- App::backspace from the source. -/
def App.backspace (a : App) : App :=
  if a.cursor_position > 0 then
    { a with cursor_position := a.cursor_position - 1,
             input := removeAtChar a.input (a.cursor_position - 1) }
  else a

/-- App::insert_char from the source. -/
def App.insert_char (a : App) (c : Char) : App :=
  { a with input := insertAtChar a.input a.cursor_position c,
           cursor_position := a.cursor_position + 1 }

/-- First while loop pattern of the word motions: advance `pos` while it is in
range and the character there satisfies `p`. -/
def scanForward (p : Char → Bool) (chars : List Char) (pos : Nat) : Nat :=
  if h : pos < chars.length then
    if p (chars.get ⟨pos, h⟩) then scanForward p chars (pos + 1) else pos
  else pos
termination_by chars.length - pos
decreasing_by omega

/-- App::move_to_next_word from the source: skip the run of non-whitespace,
then the following run of whitespace.  (Rust `char::is_whitespace` is Unicode
White_Space; `Char.isWhitespace` covers the ASCII subset.  No claim depends on
which characters count as whitespace, only on the resulting positions.) -/
def App.move_to_next_word (a : App) : App :=
  let chars := a.input
  let pos := scanForward (fun c => !c.isWhitespace) chars a.cursor_position
  let pos := scanForward (fun c => c.isWhitespace) chars pos
  { a with cursor_position := pos }

/-- First backward loop of move_to_prev_word:
`while pos > 0 && chars[pos].is_whitespace() { pos -= 1 }`.  The source
indexes `chars[pos]` directly (panic out of range); guarded call sites keep
the index in range, where `getD` agrees. -/
def scanBackWs (chars : List Char) (pos : Nat) : Nat :=
  if h : 0 < pos ∧ (chars.getD pos ' ').isWhitespace = true then
    scanBackWs chars (pos - 1)
  else pos
termination_by pos
decreasing_by omega

/-- Second backward loop of move_to_prev_word:
`while pos > 0 && !chars[pos - 1].is_whitespace() { pos -= 1 }`. -/
def scanBackNonWs (chars : List Char) (pos : Nat) : Nat :=
  if h : 0 < pos ∧ (chars.getD (pos - 1) ' ').isWhitespace = false then
    scanBackNonWs chars (pos - 1)
  else pos
termination_by pos
decreasing_by omega

/-- App::move_to_prev_word from the source. -/
def App.move_to_prev_word (a : App) : App :=
  if a.cursor_position = 0 then a
  else
    let chars := a.input
    let pos := a.cursor_position - 1
    let pos := scanBackWs chars pos
    let pos := scanBackNonWs chars pos
    { a with cursor_position := pos }

/-- App::select_next_suggestion from the source. -/
def App.select_next_suggestion (a : App) : App :=
  if a.autocomplete_suggestions.isEmpty = false then
    { a with selected_suggestion :=
        (a.selected_suggestion + 1) % a.autocomplete_suggestions.length }
  else a

/-- App::select_prev_suggestion from the source. -/
def App.select_prev_suggestion (a : App) : App :=
  if a.autocomplete_suggestions.isEmpty = false then
    if a.selected_suggestion = 0 then
      { a with selected_suggestion := a.autocomplete_suggestions.length - 1 }
    else
      { a with selected_suggestion := a.selected_suggestion - 1 }
  else a

/-- App::accept_suggestion from the source.  The source indexes
`autocomplete_suggestions[selected_suggestion]` (panic out of bounds); under
the selection invariant proved below the index is in bounds, where `getD`
agrees.  The new input is `format!("{}, {}", name, country)` and the cursor is
set to the new `char_count`. -/
def App.accept_suggestion (a : App) : App :=
  if a.show_autocomplete = true ∧ a.autocomplete_suggestions.isEmpty = false then
    let s := a.autocomplete_suggestions.getD a.selected_suggestion default
    let newInput := s.name ++ [',', ' '] ++ s.country
    { a with input := newInput,
             cursor_position := newInput.length,
             show_autocomplete := false,
             autocomplete_suggestions := [] }
  else a

/-- App::select_next_history from the source. -/
def App.select_next_history (a : App) : App :=
  if a.search_history.isEmpty = false then
    { a with selected_history_index :=
        (a.selected_history_index + 1) % a.search_history.length }
  else a

/-- App::select_prev_history from the source. -/
def App.select_prev_history (a : App) : App :=
  if a.search_history.isEmpty = false then
    if a.selected_history_index = 0 then
      { a with selected_history_index := a.search_history.length - 1 }
    else
      { a with selected_history_index := a.selected_history_index - 1 }
  else a

/-- App::load_selected_history from the source. -/
def App.load_selected_history (a : App) : App :=
  if a.search_history.isEmpty = false ∧
      a.selected_history_index < a.search_history.length then
    let q := (a.search_history.getD a.selected_history_index default).query
    { a with input := q,
             cursor_position := q.length,
             focused_pane := FocusedPane.Search,
             mode := Mode.Insert }
  else a

/-- The `iter().position(...)` + `remove(pos)` pair in add_to_history: erase
the first entry whose query equals `query`. -/
def removeFirst (query : List Char) : List HistoryEntry → List HistoryEntry
  | [] => []
  | e :: rest =>
      if e.query = query then rest else e :: removeFirst query rest

/-- App::add_to_history from the source, on the history list.  The wall-clock
timestamp is passed in; `save_history` is a fire-and-forget side effect with
its result discarded, so it does not appear in the state. -/
def addToHistoryList (h : List HistoryEntry) (query : List Char)
    (timestamp : Nat) : List HistoryEntry :=
  let h := removeFirst query h
  let h := ⟨query, timestamp⟩ :: h
  if h.length > 50 then h.take 50 else h

/-- Key codes that reach a match arm in run_app; `other` stands for every key
code falling through to the wildcard `_ => {}` arms. -/
inductive KeyCode where
  | char (c : Char)
  | backspace
  | delete
  | left
  | right
  | home
  | endKey
  | up
  | down
  | tab
  | enter
  | esc
  | other
deriving DecidableEq, Repr

/-- A key event: code plus whether the CONTROL modifier is held (the only
modifier the source inspects, for Ctrl+d). -/
structure KeyEvent where
  code : KeyCode
  ctrl : Bool
deriving DecidableEq, Repr

/-- The pane toggle performed by Tab in both modes. -/
def togglePane : FocusedPane → FocusedPane
  | FocusedPane.Search => FocusedPane.History
  | FocusedPane.History => FocusedPane.Search

/-- The submission block shared by the two Enter arms of run_app: set the
state to Loading (transient: the terminal is redrawn, then the awaited fetch
resolves it within the same key-handling step), invoke `fetch_weather` on the
captured buffer content, and on success store the data, push the query into
history, clear the buffer, reset the cursor and enter Display/Normal; on
failure store the message and enter Error.  The fetch collaborator is passed
in as a function from the query to its outcome. -/
def doSubmit (a : App) (fetch : List Char → Except (List Char) WeatherData)
    (now : Nat) : App :=
  let city := a.input
  let a := { a with state := AppState.Loading }
  match fetch city with
  | Except.ok data =>
      { a with weather_data := some data,
               search_history := addToHistoryList a.search_history city now,
               state := AppState.Display,
               input := [],
               cursor_position := 0,
               mode := Mode.Normal }
  | Except.error e =>
      { a with error_message := e, state := AppState.Error }

/-- The AppMessage::AutocompleteResults branch of run_app: the result is
applied only when the live buffer still equals the query that produced it. -/
def handleMsg (a : App) (query : List Char) (suggestions : List GeoLocation) :
    App :=
  if a.input = query then
    { a with autocomplete_suggestions := suggestions,
             show_autocomplete := !suggestions.isEmpty,
             selected_suggestion := 0 }
  else a

/-- The single-character commands of the Mode::Normal key match of run_app,
one branch per `KeyCode::Char(c)` arm, in source order; unmatched characters
fall through to the wildcard and leave the state unchanged. -/
def normalCharCommand (a : App) (c : Char) (ctrl : Bool) : App :=
  if c = 'i' then { a with mode := Mode.Insert }
  else if c = 'I' then ({ a with mode := Mode.Insert }).move_cursor_start
  else if c = 'a' then ({ a with mode := Mode.Insert }).move_cursor_right
  else if c = 'A' then ({ a with mode := Mode.Insert }).move_cursor_end
  else if c = 'h' then
    if a.focused_pane = FocusedPane.Search then a.move_cursor_left else a
  else if c = 'l' then
    if a.focused_pane = FocusedPane.Search then a.move_cursor_right else a
  else if c = 'j' then
    if a.focused_pane = FocusedPane.History then a.select_next_history else a
  else if c = 'k' then
    if a.focused_pane = FocusedPane.History then a.select_prev_history else a
  else if c = '0' ∨ c = '^' then a.move_cursor_start
  else if c = '$' then a.move_cursor_end
  else if c = 'w' then a.move_to_next_word
  else if c = 'b' then a.move_to_prev_word
  else if c = 'x' then a.delete_char
  else if c = 'd' then
    if ctrl = true then { a with input := [], cursor_position := 0 } else a
  else a

/-- The Mode::Normal key match of run_app (Input state).  `none` means the
loop returns (Esc quits).  Normal mode never arms an autocomplete dispatch. -/
def handleNormalKey (a : App) (k : KeyEvent)
    (fetch : List Char → Except (List Char) WeatherData) (now : Nat) :
    Option App :=
  match k.code with
  | KeyCode.char c => some (normalCharCommand a c k.ctrl)
  | KeyCode.tab => some { a with focused_pane := togglePane a.focused_pane }
  | KeyCode.enter =>
      if a.focused_pane = FocusedPane.History then
        some a.load_selected_history
      else if a.input ≠ [] then
        some (doSubmit a fetch now)
      else some a
  | KeyCode.esc => none
  | _ => some a

/-- The Mode::Insert key match of run_app (Input state).  The second component
is the `pending_autocomplete` value armed by this key (taken and spawned right
after the event is handled); Insert mode never exits the loop. -/
def handleInsertKey (a : App) (k : KeyEvent)
    (fetch : List Char → Except (List Char) WeatherData) (now : Nat) :
    App × Option (List Char) :=
  match k.code with
  | KeyCode.esc =>
      let a := { a with mode := Mode.Normal }
      let a := if a.cursor_position > 0 then
                 { a with cursor_position := a.cursor_position - 1 }
               else a
      ({ a with show_autocomplete := false }, none)
  | KeyCode.char c =>
      let a := a.insert_char c
      if byteLen a.input ≥ 3 ∧ a.input ≠ a.last_autocomplete_query then
        ({ a with last_autocomplete_query := a.input }, some a.input)
      else (a, none)
  | KeyCode.backspace =>
      let a := a.backspace
      if byteLen a.input < 3 then
        ({ a with show_autocomplete := false, autocomplete_suggestions := [] },
         none)
      else if a.input ≠ a.last_autocomplete_query then
        ({ a with last_autocomplete_query := a.input }, some a.input)
      else (a, none)
  | KeyCode.delete => (a.delete_char, none)
  | KeyCode.left => (a.move_cursor_left, none)
  | KeyCode.right => (a.move_cursor_right, none)
  | KeyCode.home => (a.move_cursor_start, none)
  | KeyCode.endKey => (a.move_cursor_end, none)
  | KeyCode.down =>
      (if a.show_autocomplete = true then a.select_next_suggestion else a, none)
  | KeyCode.up =>
      (if a.show_autocomplete = true then a.select_prev_suggestion else a, none)
  | KeyCode.tab =>
      if a.show_autocomplete = true then (a.accept_suggestion, none)
      else ({ a with focused_pane := togglePane a.focused_pane }, none)
  | KeyCode.enter =>
      if a.show_autocomplete = true ∧ a.autocomplete_suggestions.isEmpty = false then
        (a.accept_suggestion, none)
      else if a.input ≠ [] then
        (doSubmit { a with show_autocomplete := false } fetch now, none)
      else (a, none)
  | _ => (a, none)

/-- The AppState::Display | AppState::Error key match of run_app.  `none`
means the loop returns (Esc or q quits). -/
def handleDisplayErrorKey (a : App) (k : KeyEvent) : Option App :=
  match k.code with
  | KeyCode.esc => none
  | KeyCode.char c =>
      if c = 'q' then none
      else if c = 'i' then
        some { a with state := AppState.Input, mode := Mode.Insert,
                      error_message := [], show_autocomplete := false }
      else
        some { a with state := AppState.Input, mode := Mode.Normal,
                      error_message := [], show_autocomplete := false }
  | _ =>
      some { a with state := AppState.Input, mode := Mode.Normal,
                    error_message := [], show_autocomplete := false }

/-- One unit of work of the run_app loop: either one drained channel message,
or one key event.  A key event carries the fetch collaborator (invoked only on
submission) and the wall-clock seconds used for the history timestamp. -/
inductive UiEvent where
  | msg (query : List Char) (suggestions : List GeoLocation)
  | key (k : KeyEvent) (fetch : List Char → Except (List Char) WeatherData)
      (now : Nat)

/-- One step of the run_app loop on one event.  `none` means the loop
returned (application exit); otherwise the new state together with the
`pending_autocomplete` dispatch armed by this step, if any.  Loading accepts
no key input (it is transient within a submission step). -/
def step (a : App) (e : UiEvent) : Option (App × Option (List Char)) :=
  match e with
  | UiEvent.msg q sug => some (handleMsg a q sug, none)
  | UiEvent.key k fetch now =>
      match a.state with
      | AppState.Input =>
          match a.mode with
          | Mode.Normal => (handleNormalKey a k fetch now).map (fun a => (a, none))
          | Mode.Insert => some (handleInsertKey a k fetch now)
      | AppState.Display => (handleDisplayErrorKey a k).map (fun a => (a, none))
      | AppState.Error => (handleDisplayErrorKey a k).map (fun a => (a, none))
      | AppState.Loading => some (a, none)

/-- Reachable application states: App::new (with whatever history the file
yielded) and everything the loop can step to. -/
inductive Reachable : App → Prop where
  | init (history : List HistoryEntry) : Reachable (App.new history)
  | step {a a' : App} {e : UiEvent} {d : Option (List Char)} :
      Reachable a → step a e = some (a', d) → Reachable a'

/-! Helper lemmas about the buffer primitives. -/

theorem length_insertAtChar (s : List Char) (p : Nat) (c : Char) :
    (insertAtChar s p c).length = s.length + 1 := by
  induction s generalizing p with
  | nil => cases p <;> simp [insertAtChar]
  | cons x xs ih => cases p <;> simp [insertAtChar, ih]

theorem length_removeAtChar_of_lt {s : List Char} {p : Nat}
    (h : p < s.length) : (removeAtChar s p).length + 1 = s.length := by
  induction s generalizing p with
  | nil => simp at h
  | cons x xs ih =>
      cases p with
      | zero => simp [removeAtChar]
      | succ n =>
          simp only [removeAtChar, List.length_cons]
          have := ih (p := n) (by simpa using Nat.lt_of_succ_lt_succ h)
          omega

theorem removeAtChar_insertAtChar (s : List Char) (p : Nat) (c : Char)
    (h : p ≤ s.length) : removeAtChar (insertAtChar s p c) p = s := by
  induction s generalizing p with
  | nil =>
      have : p = 0 := by simpa using h
      subst this
      simp [insertAtChar, removeAtChar]
  | cons x xs ih =>
      cases p with
      | zero => simp [insertAtChar, removeAtChar]
      | succ n =>
          simp only [insertAtChar, removeAtChar, List.cons.injEq, true_and]
          exact ih n (by simpa using Nat.le_of_succ_le_succ h)

theorem scanForward_le (p : Char → Bool) (chars : List Char) (pos : Nat)
    (h : pos ≤ chars.length) : scanForward p chars pos ≤ chars.length := by
  unfold scanForward
  split
  · split
    · exact scanForward_le p chars (pos + 1) (by omega)
    · omega
  · omega
termination_by chars.length - pos
decreasing_by omega

theorem scanBackWs_le (chars : List Char) (pos : Nat) :
    scanBackWs chars pos ≤ pos := by
  unfold scanBackWs
  split
  · exact Nat.le_trans (scanBackWs_le chars (pos - 1)) (by omega)
  · omega
termination_by pos
decreasing_by omega

theorem scanBackNonWs_le (chars : List Char) (pos : Nat) :
    scanBackNonWs chars pos ≤ pos := by
  unfold scanBackNonWs
  split
  · exact Nat.le_trans (scanBackNonWs_le chars (pos - 1)) (by omega)
  · omega
termination_by pos
decreasing_by omega

/-! The loop invariant: the cursor is a valid character index, the visibility
flag implies a non-empty suggestion list, and a non-empty suggestion list
keeps the selected index in bounds. -/

def Inv (a : App) : Prop :=
  a.cursor_position ≤ a.input.length ∧
  (a.show_autocomplete = true → a.autocomplete_suggestions ≠ []) ∧
  (a.autocomplete_suggestions ≠ [] →
    a.selected_suggestion < a.autocomplete_suggestions.length)

theorem inv_new (history : List HistoryEntry) : Inv (App.new history) := by
  refine ⟨by simp [App.new], by simp [App.new], by simp [App.new]⟩

theorem inv_move_cursor_left {a : App} (h : Inv a) : Inv a.move_cursor_left := by
  obtain ⟨h1, h2, h3⟩ := h
  unfold App.move_cursor_left
  split
  · refine ⟨?_, h2, h3⟩
    show a.cursor_position - 1 ≤ a.input.length
    omega
  · exact ⟨h1, h2, h3⟩

theorem inv_move_cursor_right {a : App} (h : Inv a) : Inv a.move_cursor_right := by
  obtain ⟨h1, h2, h3⟩ := h
  unfold App.move_cursor_right App.char_count
  split
  · next hc =>
      refine ⟨?_, h2, h3⟩
      show a.cursor_position + 1 ≤ a.input.length
      have hlt : a.cursor_position < a.input.length := hc
      omega
  · exact ⟨h1, h2, h3⟩

theorem inv_move_cursor_start {a : App} (h : Inv a) : Inv a.move_cursor_start :=
  ⟨by simp [App.move_cursor_start], h.2.1, h.2.2⟩

theorem inv_move_cursor_end {a : App} (h : Inv a) : Inv a.move_cursor_end :=
  ⟨by simp [App.move_cursor_end, App.char_count], h.2.1, h.2.2⟩

theorem inv_delete_char {a : App} (h : Inv a) : Inv a.delete_char := by
  obtain ⟨h1, h2, h3⟩ := h
  unfold App.delete_char App.char_count
  split
  · next hc =>
      refine ⟨?_, h2, h3⟩
      simp only
      have := length_removeAtChar_of_lt hc
      omega
  · exact ⟨h1, h2, h3⟩

theorem inv_backspace {a : App} (h : Inv a) : Inv a.backspace := by
  obtain ⟨h1, h2, h3⟩ := h
  unfold App.backspace
  split
  · next hc =>
      refine ⟨?_, h2, h3⟩
      simp only
      have hlt : a.cursor_position - 1 < a.input.length := by omega
      have := length_removeAtChar_of_lt hlt
      omega
  · exact ⟨h1, h2, h3⟩

theorem inv_insert_char {a : App} (c : Char) (h : Inv a) :
    Inv (a.insert_char c) := by
  obtain ⟨h1, h2, h3⟩ := h
  refine ⟨?_, h2, h3⟩
  simp only [App.insert_char, length_insertAtChar]
  omega

theorem inv_move_to_next_word {a : App} (h : Inv a) :
    Inv a.move_to_next_word := by
  obtain ⟨h1, h2, h3⟩ := h
  refine ⟨?_, h2, h3⟩
  simp only [App.move_to_next_word]
  exact scanForward_le _ _ _ (scanForward_le _ _ _ h1)

theorem inv_move_to_prev_word {a : App} (h : Inv a) :
    Inv a.move_to_prev_word := by
  obtain ⟨h1, h2, h3⟩ := h
  unfold App.move_to_prev_word
  split
  · exact ⟨h1, h2, h3⟩
  · refine ⟨?_, h2, h3⟩
    simp only
    have b1 := scanBackWs_le a.input (a.cursor_position - 1)
    have b2 := scanBackNonWs_le a.input (scanBackWs a.input (a.cursor_position - 1))
    omega

theorem inv_select_next_suggestion {a : App} (h : Inv a) :
    Inv a.select_next_suggestion := by
  obtain ⟨h1, h2, h3⟩ := h
  unfold App.select_next_suggestion
  split
  · next he =>
      refine ⟨h1, h2, fun _ => ?_⟩
      simp only
      have : a.autocomplete_suggestions.length ≠ 0 := by
        cases hs : a.autocomplete_suggestions with
        | nil => rw [hs] at he; simp at he
        | cons _ _ => simp [hs]
      exact Nat.mod_lt _ (Nat.pos_of_ne_zero this)
  · exact ⟨h1, h2, h3⟩

theorem inv_select_prev_suggestion {a : App} (h : Inv a) :
    Inv a.select_prev_suggestion := by
  obtain ⟨h1, h2, h3⟩ := h
  unfold App.select_prev_suggestion
  have hlen : a.autocomplete_suggestions.isEmpty = false →
      0 < a.autocomplete_suggestions.length := by
    intro he
    cases hs : a.autocomplete_suggestions with
    | nil => rw [hs] at he; simp at he
    | cons _ _ => simp [hs]
  split
  · next he =>
      split
      · refine ⟨h1, h2, fun _ => ?_⟩
        show a.autocomplete_suggestions.length - 1 < a.autocomplete_suggestions.length
        have := hlen he
        omega
      · next hz =>
          refine ⟨h1, h2, fun hne => ?_⟩
          show a.selected_suggestion - 1 < a.autocomplete_suggestions.length
          have := h3 hne
          omega
  · exact ⟨h1, h2, h3⟩

theorem inv_accept_suggestion {a : App} (h : Inv a) :
    Inv a.accept_suggestion := by
  obtain ⟨h1, h2, h3⟩ := h
  unfold App.accept_suggestion
  split
  · exact ⟨by simp, by simp, by simp⟩
  · exact ⟨h1, h2, h3⟩

theorem inv_select_next_history {a : App} (h : Inv a) :
    Inv a.select_next_history := by
  obtain ⟨h1, h2, h3⟩ := h
  unfold App.select_next_history
  split <;> exact ⟨h1, h2, h3⟩

theorem inv_select_prev_history {a : App} (h : Inv a) :
    Inv a.select_prev_history := by
  obtain ⟨h1, h2, h3⟩ := h
  unfold App.select_prev_history
  split
  · split <;> exact ⟨h1, h2, h3⟩
  · exact ⟨h1, h2, h3⟩

theorem inv_load_selected_history {a : App} (h : Inv a) :
    Inv a.load_selected_history := by
  obtain ⟨h1, h2, h3⟩ := h
  unfold App.load_selected_history
  split
  · exact ⟨by simp, h2, h3⟩
  · exact ⟨h1, h2, h3⟩

theorem inv_doSubmit {a : App} (fetch : List Char → Except (List Char) WeatherData)
    (now : Nat) (h : Inv a) : Inv (doSubmit a fetch now) := by
  obtain ⟨h1, h2, h3⟩ := h
  unfold doSubmit
  dsimp only
  cases hf : fetch a.input with
  | ok d => exact ⟨Nat.zero_le _, h2, h3⟩
  | error e => exact ⟨h1, h2, h3⟩

theorem inv_handleMsg {a : App} (q : List Char) (sug : List GeoLocation)
    (h : Inv a) : Inv (handleMsg a q sug) := by
  obtain ⟨h1, h2, h3⟩ := h
  unfold handleMsg
  split
  · refine ⟨h1, ?_, ?_⟩
    · intro hs
      simp only at hs ⊢
      cases sug with
      | nil => simp at hs
      | cons _ _ => simp
    · intro hne
      simp only at hne ⊢
      cases sug with
      | nil => simp at hne
      | cons _ _ => simp
  · exact ⟨h1, h2, h3⟩

theorem inv_normalCharCommand {a : App} (c : Char) (ctrl : Bool)
    (hi : Inv a) : Inv (normalCharCommand a c ctrl) := by
  obtain ⟨h1, h2, h3⟩ := hi
  unfold normalCharCommand
  by_cases h01 : c = 'i'
  · rw [if_pos h01]; exact ⟨h1, h2, h3⟩
  rw [if_neg h01]
  by_cases h02 : c = 'I'
  · rw [if_pos h02]; exact inv_move_cursor_start ⟨h1, h2, h3⟩
  rw [if_neg h02]
  by_cases h03 : c = 'a'
  · rw [if_pos h03]; exact inv_move_cursor_right ⟨h1, h2, h3⟩
  rw [if_neg h03]
  by_cases h04 : c = 'A'
  · rw [if_pos h04]; exact inv_move_cursor_end ⟨h1, h2, h3⟩
  rw [if_neg h04]
  by_cases h05 : c = 'h'
  · rw [if_pos h05]
    by_cases hf : a.focused_pane = FocusedPane.Search
    · rw [if_pos hf]; exact inv_move_cursor_left ⟨h1, h2, h3⟩
    · rw [if_neg hf]; exact ⟨h1, h2, h3⟩
  rw [if_neg h05]
  by_cases h06 : c = 'l'
  · rw [if_pos h06]
    by_cases hf : a.focused_pane = FocusedPane.Search
    · rw [if_pos hf]; exact inv_move_cursor_right ⟨h1, h2, h3⟩
    · rw [if_neg hf]; exact ⟨h1, h2, h3⟩
  rw [if_neg h06]
  by_cases h07 : c = 'j'
  · rw [if_pos h07]
    by_cases hf : a.focused_pane = FocusedPane.History
    · rw [if_pos hf]; exact inv_select_next_history ⟨h1, h2, h3⟩
    · rw [if_neg hf]; exact ⟨h1, h2, h3⟩
  rw [if_neg h07]
  by_cases h08 : c = 'k'
  · rw [if_pos h08]
    by_cases hf : a.focused_pane = FocusedPane.History
    · rw [if_pos hf]; exact inv_select_prev_history ⟨h1, h2, h3⟩
    · rw [if_neg hf]; exact ⟨h1, h2, h3⟩
  rw [if_neg h08]
  by_cases h09 : c = '0' ∨ c = '^'
  · rw [if_pos h09]; exact inv_move_cursor_start ⟨h1, h2, h3⟩
  rw [if_neg h09]
  by_cases h10 : c = '$'
  · rw [if_pos h10]; exact inv_move_cursor_end ⟨h1, h2, h3⟩
  rw [if_neg h10]
  by_cases h11 : c = 'w'
  · rw [if_pos h11]; exact inv_move_to_next_word ⟨h1, h2, h3⟩
  rw [if_neg h11]
  by_cases h12 : c = 'b'
  · rw [if_pos h12]; exact inv_move_to_prev_word ⟨h1, h2, h3⟩
  rw [if_neg h12]
  by_cases h13 : c = 'x'
  · rw [if_pos h13]; exact inv_delete_char ⟨h1, h2, h3⟩
  rw [if_neg h13]
  by_cases h14 : c = 'd'
  · rw [if_pos h14]
    by_cases hctl : ctrl = true
    · rw [if_pos hctl]; exact ⟨Nat.zero_le _, h2, h3⟩
    · rw [if_neg hctl]; exact ⟨h1, h2, h3⟩
  rw [if_neg h14]
  exact ⟨h1, h2, h3⟩

theorem inv_handleNormalKey {a a' : App} {k : KeyEvent}
    {fetch : List Char → Except (List Char) WeatherData} {now : Nat}
    (hi : Inv a) (h : handleNormalKey a k fetch now = some a') : Inv a' := by
  obtain ⟨h1, h2, h3⟩ := hi
  unfold handleNormalKey at h
  split at h
  · -- KeyCode.char c
    injection h with h; subst h
    exact inv_normalCharCommand _ _ ⟨h1, h2, h3⟩
  · -- KeyCode.tab
    injection h with h; subst h
    exact ⟨h1, h2, h3⟩
  · -- KeyCode.enter
    split_ifs at h <;> (injection h with h; subst h)
    · exact inv_load_selected_history ⟨h1, h2, h3⟩
    · exact inv_doSubmit fetch now ⟨h1, h2, h3⟩
    · exact ⟨h1, h2, h3⟩
  · -- KeyCode.esc
    exact Option.noConfusion h
  · -- other keys
    injection h with h; subst h
    exact ⟨h1, h2, h3⟩

theorem inv_handleInsertKey {a : App} {k : KeyEvent}
    {fetch : List Char → Except (List Char) WeatherData} {now : Nat}
    (hi : Inv a) : Inv (handleInsertKey a k fetch now).1 := by
  obtain ⟨h1, h2, h3⟩ := hi
  unfold handleInsertKey
  split
  · -- Esc
    dsimp only
    split
    · refine ⟨?_, by simp, h3⟩
      show a.cursor_position - 1 ≤ a.input.length
      omega
    · exact ⟨h1, by simp, h3⟩
  · -- Char c
    dsimp only
    split
    · exact ⟨(inv_insert_char _ ⟨h1, h2, h3⟩).1, h2, h3⟩
    · exact inv_insert_char _ ⟨h1, h2, h3⟩
  · -- Backspace
    dsimp only
    have hb := inv_backspace (a := a) ⟨h1, h2, h3⟩
    split
    · exact ⟨hb.1, by simp, by simp⟩
    · split
      · exact ⟨hb.1, hb.2.1, hb.2.2⟩
      · exact hb
  · exact inv_delete_char ⟨h1, h2, h3⟩
  · exact inv_move_cursor_left ⟨h1, h2, h3⟩
  · exact inv_move_cursor_right ⟨h1, h2, h3⟩
  · exact inv_move_cursor_start ⟨h1, h2, h3⟩
  · exact inv_move_cursor_end ⟨h1, h2, h3⟩
  · split
    · exact inv_select_next_suggestion ⟨h1, h2, h3⟩
    · exact ⟨h1, h2, h3⟩
  · split
    · exact inv_select_prev_suggestion ⟨h1, h2, h3⟩
    · exact ⟨h1, h2, h3⟩
  · -- Tab
    split
    · exact inv_accept_suggestion ⟨h1, h2, h3⟩
    · exact ⟨h1, h2, h3⟩
  · -- Enter
    split
    · exact inv_accept_suggestion ⟨h1, h2, h3⟩
    · split
      · exact inv_doSubmit (a := { a with show_autocomplete := false }) fetch now
          ⟨h1, by simp, h3⟩
      · exact ⟨h1, h2, h3⟩
  · exact ⟨h1, h2, h3⟩

theorem inv_handleDisplayErrorKey {a a' : App} {k : KeyEvent}
    (hi : Inv a) (h : handleDisplayErrorKey a k = some a') : Inv a' := by
  obtain ⟨h1, h2, h3⟩ := hi
  unfold handleDisplayErrorKey at h
  split at h
  · exact Option.noConfusion h
  · split_ifs at h <;>
      first
      | exact Option.noConfusion h
      | (injection h with h; subst h; exact ⟨h1, by simp, h3⟩)
  · injection h with h; subst h
    exact ⟨h1, by simp, h3⟩

theorem inv_step {a a' : App} {e : UiEvent} {d : Option (List Char)}
    (hi : Inv a) (h : step a e = some (a', d)) : Inv a' := by
  cases e with
  | msg q sug =>
      simp only [step, Option.some.injEq, Prod.mk.injEq] at h
      obtain ⟨h, _⟩ := h
      subst h
      exact inv_handleMsg q sug hi
  | key k fetch now =>
      simp only [step] at h
      cases hs : a.state <;> simp only [hs] at h
      · cases hm : a.mode <;> simp only [hm] at h
        · cases hn : handleNormalKey a k fetch now <;> simp only [hn] at h
          · exact Option.noConfusion h
          · simp only [Option.map_some', Option.some.injEq, Prod.mk.injEq] at h
            obtain ⟨h, _⟩ := h
            subst h
            exact inv_handleNormalKey hi hn
        · simp only [Option.some.injEq] at h
          have hfst : (handleInsertKey a k fetch now).1 = a' := by rw [h]
          subst hfst
          exact inv_handleInsertKey hi
      · simp only [Option.some.injEq, Prod.mk.injEq] at h
        obtain ⟨h, _⟩ := h
        subst h
        exact hi
      · cases hn : handleDisplayErrorKey a k <;> simp only [hn] at h
        · exact Option.noConfusion h
        · simp only [Option.map_some', Option.some.injEq, Prod.mk.injEq] at h
          obtain ⟨h, _⟩ := h
          subst h
          exact inv_handleDisplayErrorKey hi hn
      · cases hn : handleDisplayErrorKey a k <;> simp only [hn] at h
        · exact Option.noConfusion h
        · simp only [Option.map_some', Option.some.injEq, Prod.mk.injEq] at h
          obtain ⟨h, _⟩ := h
          subst h
          exact inv_handleDisplayErrorKey hi hn

theorem reachable_inv {a : App} (h : Reachable a) : Inv a := by
  induction h with
  | init history => exact inv_new history
  | step _ hstep ih => exact inv_step ih hstep

/-! Concrete material shared by several results: a fetch stub that always
fails (never invoked on the traces below), a sample location, and a concrete
run of the loop that types three characters, leaves Insert mode, and then
consumes the autocomplete result that was dispatched while typing. -/

def errFetch : List Char → Except (List Char) WeatherData :=
  fun _ => Except.error []

def sampleLoc : GeoLocation :=
  { name := ['B'], latitude := 0, longitude := 0, country := ['D'], admin1 := none }

def traceA0 : App := App.new []

def traceA1 : App := { traceA0 with mode := Mode.Insert }

def traceA2 : App := { traceA1 with input := ['a'], cursor_position := 1 }

def traceA3 : App := { traceA2 with input := ['a', 'b'], cursor_position := 2 }

def traceA4 : App :=
  { traceA3 with input := ['a', 'b', 'c'], cursor_position := 3,
                 last_autocomplete_query := ['a', 'b', 'c'] }

def traceA5 : App :=
  { traceA4 with mode := Mode.Normal, cursor_position := 2,
                 show_autocomplete := false }

def traceA6 : App :=
  { traceA5 with autocomplete_suggestions := [sampleLoc],
                 show_autocomplete := true, selected_suggestion := 0 }

theorem reach_traceA5 : Reachable traceA5 := by
  have r0 : Reachable traceA0 := Reachable.init []
  have r1 : Reachable traceA1 :=
    Reachable.step (e := UiEvent.key ⟨KeyCode.char 'i', false⟩ errFetch 0)
      (d := none) r0 (by decide)
  have r2 : Reachable traceA2 :=
    Reachable.step (e := UiEvent.key ⟨KeyCode.char 'a', false⟩ errFetch 0)
      (d := none) r1 (by decide)
  have r3 : Reachable traceA3 :=
    Reachable.step (e := UiEvent.key ⟨KeyCode.char 'b', false⟩ errFetch 0)
      (d := none) r2 (by decide)
  have r4 : Reachable traceA4 :=
    Reachable.step (e := UiEvent.key ⟨KeyCode.char 'c', false⟩ errFetch 0)
      (d := some ['a', 'b', 'c']) r3 (by decide)
  exact Reachable.step (e := UiEvent.key ⟨KeyCode.esc, false⟩ errFetch 0)
    (d := none) r4 (by decide)

theorem reach_traceA6 : Reachable traceA6 :=
  Reachable.step (e := UiEvent.msg ['a', 'b', 'c'] [sampleLoc])
    (d := none) reach_traceA5 (by decide)

/-- C1: an arriving autocomplete result keyed by query `q` is applied (the
suggestion set is replaced, the selected index is reset to 0, and visibility
becomes true exactly when the result list is non-empty) if and only if the
live buffer equals `q` when the message is consumed; otherwise the message
leaves the state entirely unchanged. -/
theorem C1_apply_iff_live_buffer (a : App) (q : List Char)
    (sug : List GeoLocation) :
    (a.input = q →
      (handleMsg a q sug).autocomplete_suggestions = sug ∧
      (handleMsg a q sug).selected_suggestion = 0 ∧
      ((handleMsg a q sug).show_autocomplete = true ↔ sug ≠ []) ∧
      (handleMsg a q sug).input = a.input ∧
      (handleMsg a q sug).mode = a.mode ∧
      (handleMsg a q sug).cursor_position = a.cursor_position) ∧
    (a.input ≠ q → handleMsg a q sug = a) := by
  constructor
  · intro h
    unfold handleMsg
    rw [if_pos h]
    refine ⟨rfl, rfl, ?_, rfl, rfl, rfl⟩
    cases sug <;> simp
  · intro h
    unfold handleMsg
    rw [if_neg h]

theorem C1_witness :
    (handleMsg traceA5 ['a', 'b', 'c'] [sampleLoc]).selected_suggestion = 0 ∧
    handleMsg traceA5 ['x'] [sampleLoc] = traceA5 :=
  ⟨((C1_apply_iff_live_buffer traceA5 ['a', 'b', 'c'] [sampleLoc]).1
      (by decide)).2.1,
   (C1_apply_iff_live_buffer traceA5 ['x'] [sampleLoc]).2 (by decide)⟩

/-- C4: in every reachable state the cursor lies in `[0, char_count]`, and
the buffer mutations and motions are no-ops (not errors) at the buffer
boundaries: backspace and move-left at position 0, delete-forward and
move-right at or past the end. -/
theorem C4_cursor_in_bounds (a : App) :
    (Reachable a → a.cursor_position ≤ a.input.length) ∧
    (a.cursor_position = 0 → a.backspace = a ∧ a.move_cursor_left = a) ∧
    (a.input.length ≤ a.cursor_position →
      a.delete_char = a ∧ a.move_cursor_right = a) := by
  refine ⟨fun h => (reachable_inv h).1, fun h0 => ⟨?_, ?_⟩, fun hend => ⟨?_, ?_⟩⟩
  · unfold App.backspace
    rw [if_neg (by omega)]
  · unfold App.move_cursor_left
    rw [if_neg (by omega)]
  · unfold App.delete_char App.char_count
    rw [if_neg (by omega)]
  · unfold App.move_cursor_right App.char_count
    rw [if_neg (by omega)]

theorem C4_witness :
    traceA5.cursor_position ≤ traceA5.input.length ∧
    (App.new []).backspace = App.new [] ∧
    traceA4.delete_char = traceA4 := by
  refine ⟨(C4_cursor_in_bounds traceA5).1 reach_traceA5,
          ((C4_cursor_in_bounds (App.new [])).2.1 rfl).1,
          ?_⟩
  exact ((C4_cursor_in_bounds traceA4).2.2 (by decide)).1

/-- C5 counterexample: the claim says the visibility flag can be true only
when the mode is Insert, and that no step can make suggestions visible in
Normal mode.  The state `traceA6` is reachable (type "abc" in Insert mode —
which dispatches a lookup — press Esc, then consume the arriving result: the
message branch checks only the buffer, never the mode) and has the visibility
flag set while the mode is Normal. -/
theorem C5_counterexample :
    Reachable traceA6 ∧ traceA6.show_autocomplete = true ∧
    traceA6.mode = Mode.Normal :=
  ⟨reach_traceA6, rfl, rfl⟩

/-- C5 amended: in every reachable state the visibility flag is true only
when the suggestion list is non-empty; the Insert-mode conjunct of the claim
does not hold, because consuming an autocomplete result sets visibility
without checking the mode. -/
theorem C5_visible_implies_nonempty (a : App) (h : Reachable a)
    (hs : a.show_autocomplete = true) : a.autocomplete_suggestions ≠ [] :=
  (reachable_inv h).2.1 hs

theorem C5_witness : traceA6.autocomplete_suggestions ≠ [] :=
  C5_visible_implies_nonempty traceA6 reach_traceA6 rfl

/-- C8: inserting any single character (multi-byte included) and then
deleting backward restores the original buffer and cursor — in fact the whole
application state — whenever the cursor is a valid character index. -/
theorem C8_insert_backspace_roundtrip (a : App) (c : Char)
    (h : a.cursor_position ≤ a.input.length) :
    (a.insert_char c).backspace = a := by
  unfold App.insert_char App.backspace
  rw [if_pos (by simp)]
  simp only [Nat.add_sub_cancel, removeAtChar_insertAtChar a.input a.cursor_position c h]

theorem C8_witness :
    (({ App.new [] with input := ['a', 'é'], cursor_position := 1 }).insert_char
        '漢').backspace =
      { App.new [] with input := ['a', 'é'], cursor_position := 1 } :=
  C8_insert_backspace_roundtrip
    { App.new [] with input := ['a', 'é'], cursor_position := 1 } '漢' (by decide)

/-- C9: in every reachable state a non-empty suggestion list keeps the
selected index strictly below its length (so the indexing inside
accept_suggestion, guarded by visibility and non-emptiness, is in bounds and
the modulo in the selection moves never divides by zero), and both selection
moves are no-ops on an empty suggestion list. -/
theorem C9_selection_in_bounds (a : App) :
    (Reachable a → a.autocomplete_suggestions ≠ [] →
      a.selected_suggestion < a.autocomplete_suggestions.length) ∧
    (a.autocomplete_suggestions = [] →
      a.select_next_suggestion = a ∧ a.select_prev_suggestion = a) := by
  refine ⟨fun h => (reachable_inv h).2.2, fun he => ⟨?_, ?_⟩⟩
  · unfold App.select_next_suggestion
    rw [if_neg (by simp [he])]
  · unfold App.select_prev_suggestion
    rw [if_neg (by simp [he])]

theorem C9_witness :
    traceA6.selected_suggestion < traceA6.autocomplete_suggestions.length ∧
    (App.new []).select_next_suggestion = App.new [] :=
  ⟨(C9_selection_in_bounds traceA6).1 reach_traceA6 (by decide),
   ((C9_selection_in_bounds (App.new [])).2 rfl).1⟩

/-! States for the C2 and C3 counterexamples: an Insert-mode buffer holding
one two-byte character, and an Insert-mode buffer "abc" with visible
suggestions and the cursor at position 0. -/

def c2App : App :=
  { App.new [] with mode := Mode.Insert, input := ['é'], cursor_position := 1 }

theorem reach_c2App : Reachable c2App := by
  have r0 : Reachable (App.new []) := Reachable.init []
  have r1 : Reachable { App.new [] with mode := Mode.Insert } :=
    Reachable.step (e := UiEvent.key ⟨KeyCode.char 'i', false⟩ errFetch 0)
      (d := none) r0 (by decide)
  exact Reachable.step (e := UiEvent.key ⟨KeyCode.char 'é', false⟩ errFetch 0)
    (d := none) r1 (by decide)

def traceB1 : App :=
  { traceA4 with autocomplete_suggestions := [sampleLoc],
                 show_autocomplete := true }

def c3App : App := { traceB1 with cursor_position := 0 }

theorem reach_c3App : Reachable c3App := by
  have r4 : Reachable traceA4 := by
    have r0 : Reachable traceA0 := Reachable.init []
    have r1 : Reachable traceA1 :=
      Reachable.step (e := UiEvent.key ⟨KeyCode.char 'i', false⟩ errFetch 0)
        (d := none) r0 (by decide)
    have r2 : Reachable traceA2 :=
      Reachable.step (e := UiEvent.key ⟨KeyCode.char 'a', false⟩ errFetch 0)
        (d := none) r1 (by decide)
    have r3 : Reachable traceA3 :=
      Reachable.step (e := UiEvent.key ⟨KeyCode.char 'b', false⟩ errFetch 0)
        (d := none) r2 (by decide)
    exact Reachable.step (e := UiEvent.key ⟨KeyCode.char 'c', false⟩ errFetch 0)
      (d := some ['a', 'b', 'c']) r3 (by decide)
  have r5 : Reachable traceB1 :=
    Reachable.step (e := UiEvent.msg ['a', 'b', 'c'] [sampleLoc])
      (d := none) r4 (by decide)
  exact Reachable.step (e := UiEvent.key ⟨KeyCode.home, false⟩ errFetch 0)
    (d := none) r5 (by decide)

/-- C2 counterexample: the claim says a lookup is dispatched iff the buffer
is at least 3 characters long.  The dispatch test in the source is
`app.input.len() >= 3`, a UTF-8 byte count: in the reachable state whose
buffer is the single two-byte character "é", inserting a second "é" leaves a
2-character buffer, yet a lookup for it is dispatched (4 bytes ≥ 3).  (The
source also never dispatches on a Delete-key mutation, see the C3
counterexample.) -/
theorem C2_counterexample :
    Reachable c2App ∧
    step c2App (UiEvent.key ⟨KeyCode.char 'é', false⟩ errFetch 0) =
      some ({ c2App with input := ['é', 'é'], cursor_position := 2,
                         last_autocomplete_query := ['é', 'é'] },
            some ['é', 'é']) ∧
    (['é', 'é'] : List Char).length < 3 :=
  ⟨reach_c2App, by decide, by decide⟩

theorem insert_char_keeps_last (a : App) (c : Char) :
    (a.insert_char c).last_autocomplete_query = a.last_autocomplete_query := rfl

theorem backspace_keeps_last (a : App) :
    a.backspace.last_autocomplete_query = a.last_autocomplete_query := by
  unfold App.backspace
  split <;> rfl

/-- C2 amended: in Insert mode in the Input phase, inserting a character
dispatches a lookup if and only if the resulting buffer's UTF-8 byte length
is at least 3 and the buffer differs from the last dispatched content — the
buffer is captured verbatim as the key and recorded as the last dispatched
content; a Backspace whose result keeps byte length ≥ 3 dispatches under the
same difference test; a Delete-key mutation never dispatches. -/
theorem C2_corrected_dispatch (a : App) (ctrl : Bool)
    (fetch : List Char → Except (List Char) WeatherData) (now : Nat)
    (hstate : a.state = AppState.Input) (hmode : a.mode = Mode.Insert) :
    (∀ c : Char,
      (byteLen (a.insert_char c).input ≥ 3 ∧
          (a.insert_char c).input ≠ a.last_autocomplete_query →
        step a (UiEvent.key ⟨KeyCode.char c, ctrl⟩ fetch now) =
          some ({ a.insert_char c with
                    last_autocomplete_query := (a.insert_char c).input },
                some (a.insert_char c).input)) ∧
      (¬ (byteLen (a.insert_char c).input ≥ 3 ∧
            (a.insert_char c).input ≠ a.last_autocomplete_query) →
        step a (UiEvent.key ⟨KeyCode.char c, ctrl⟩ fetch now) =
          some (a.insert_char c, none))) ∧
    (byteLen a.backspace.input ≥ 3 →
      (a.backspace.input ≠ a.last_autocomplete_query →
        step a (UiEvent.key ⟨KeyCode.backspace, ctrl⟩ fetch now) =
          some ({ a.backspace with
                    last_autocomplete_query := a.backspace.input },
                some a.backspace.input)) ∧
      (a.backspace.input = a.last_autocomplete_query →
        step a (UiEvent.key ⟨KeyCode.backspace, ctrl⟩ fetch now) =
          some (a.backspace, none))) ∧
    (step a (UiEvent.key ⟨KeyCode.delete, ctrl⟩ fetch now) =
      some (a.delete_char, none)) := by
  refine ⟨fun c => ⟨fun hcond => ?_, fun hcond => ?_⟩,
          fun hy => ⟨fun hdiff => ?_, fun heq => ?_⟩, ?_⟩
  · simp only [step, hstate, hmode, handleInsertKey, insert_char_keeps_last]
    rw [if_pos hcond]
  · simp only [step, hstate, hmode, handleInsertKey, insert_char_keeps_last]
    rw [if_neg hcond]
  · simp only [step, hstate, hmode, handleInsertKey, backspace_keeps_last]
    rw [if_neg (by omega), if_pos hdiff]
  · simp only [step, hstate, hmode, handleInsertKey, backspace_keeps_last]
    rw [if_neg (by omega), if_neg (by simp [heq])]
  · simp only [step, hstate, hmode, handleInsertKey]

theorem C2_witness :
    step c2App (UiEvent.key ⟨KeyCode.char 'z', false⟩ errFetch 0) =
      some ({ c2App.insert_char 'z' with
                last_autocomplete_query := (c2App.insert_char 'z').input },
            some (c2App.insert_char 'z').input) ∧
    step c2App (UiEvent.key ⟨KeyCode.delete, false⟩ errFetch 0) =
      some (c2App.delete_char, none) :=
  ⟨((C2_corrected_dispatch c2App false errFetch 0 rfl rfl).1 'z').1
      ⟨by decide, by decide⟩,
   (C2_corrected_dispatch c2App false errFetch 0 rfl rfl).2.2⟩

/-- C3 counterexample: the claim says every Insert-mode Backspace or Delete
mutation leaving fewer than 3 characters clears and hides the suggestion
set.  In the reachable state `c3App` (buffer "abc", visible suggestions,
cursor at 0), the Delete key shrinks the buffer to "bc" — 2 characters — yet
the suggestion set is still present and visible, because the Delete arm of
the source only mutates the buffer. -/
theorem C3_counterexample :
    Reachable c3App ∧
    step c3App (UiEvent.key ⟨KeyCode.delete, false⟩ errFetch 0) =
      some ({ c3App with input := ['b', 'c'] }, none) ∧
    (['b', 'c'] : List Char).length < 3 ∧
    ({ c3App with input := ['b', 'c'] } : App).show_autocomplete = true ∧
    ({ c3App with input := ['b', 'c'] } : App).autocomplete_suggestions ≠ [] :=
  ⟨reach_c3App, by decide, by decide, by decide, by decide⟩

/-- C3 amended: in Insert mode in the Input phase, a Backspace whose result
has UTF-8 byte length below 3 synchronously clears and hides the suggestion
set with no dispatch issued; a Delete-key mutation leaves the suggestion set
and the visibility flag untouched and never dispatches. -/
theorem C3_corrected_shrink (a : App) (ctrl : Bool)
    (fetch : List Char → Except (List Char) WeatherData) (now : Nat)
    (hstate : a.state = AppState.Input) (hmode : a.mode = Mode.Insert) :
    (byteLen a.backspace.input < 3 →
      step a (UiEvent.key ⟨KeyCode.backspace, ctrl⟩ fetch now) =
        some ({ a.backspace with show_autocomplete := false,
                                 autocomplete_suggestions := [] }, none)) ∧
    (step a (UiEvent.key ⟨KeyCode.delete, ctrl⟩ fetch now) =
        some (a.delete_char, none) ∧
      a.delete_char.show_autocomplete = a.show_autocomplete ∧
      a.delete_char.autocomplete_suggestions = a.autocomplete_suggestions) := by
  refine ⟨fun hlt => ?_, ?_, ?_, ?_⟩
  · simp only [step, hstate, hmode, handleInsertKey]
    rw [if_pos hlt]
  · simp only [step, hstate, hmode, handleInsertKey]
  · unfold App.delete_char
    split <;> rfl
  · unfold App.delete_char
    split <;> rfl

/-! Helper lemmas about submission, shared by the submission results. -/

theorem enter_submits_normal (a : App)
    (fetch : List Char → Except (List Char) WeatherData) (now : Nat)
    (hstate : a.state = AppState.Input) (hmode : a.mode = Mode.Normal)
    (hfocus : a.focused_pane = FocusedPane.Search) (hne : a.input ≠ []) :
    step a (UiEvent.key ⟨KeyCode.enter, false⟩ fetch now) =
      some (doSubmit a fetch now, none) := by
  simp only [step, hstate, hmode, handleNormalKey]
  rw [if_neg (by simp [hfocus]), if_pos hne]
  rfl

theorem enter_submits_insert (a : App)
    (fetch : List Char → Except (List Char) WeatherData) (now : Nat)
    (hstate : a.state = AppState.Input) (hmode : a.mode = Mode.Insert)
    (hshow : a.show_autocomplete = false) (hne : a.input ≠ []) :
    step a (UiEvent.key ⟨KeyCode.enter, false⟩ fetch now) =
      some (doSubmit a fetch now, none) := by
  simp only [step, hstate, hmode, handleInsertKey]
  rw [if_neg (by simp [hshow]), if_pos hne]
  have harec : ({ a with show_autocomplete := false, state := AppState.Input,
                         mode := Mode.Insert } : App) = a := by
    rw [← hshow, ← hstate, ← hmode]
  rw [harec]

theorem doSubmit_ok (a : App)
    (fetch : List Char → Except (List Char) WeatherData) (now : Nat)
    (d : WeatherData) (hf : fetch a.input = Except.ok d) :
    doSubmit a fetch now =
      { a with state := AppState.Display, weather_data := some d,
               search_history := addToHistoryList a.search_history a.input now,
               input := [], cursor_position := 0, mode := Mode.Normal } := by
  unfold doSubmit
  dsimp only
  rw [hf]

theorem doSubmit_error (a : App)
    (fetch : List Char → Except (List Char) WeatherData) (now : Nat)
    (e : List Char) (hf : fetch a.input = Except.error e) :
    doSubmit a fetch now =
      { a with state := AppState.Error, error_message := e } := by
  unfold doSubmit
  dsimp only
  rw [hf]

theorem addToHistoryList_head (h : List HistoryEntry) (q : List Char)
    (t : Nat) : (addToHistoryList h q t).head? = some ⟨q, t⟩ := by
  unfold addToHistoryList
  dsimp only
  split
  · rfl
  · rfl

theorem C3_witness :
    step c3App (UiEvent.key ⟨KeyCode.delete, false⟩ errFetch 0) =
      some (c3App.delete_char, none) ∧
    step traceA2 (UiEvent.key ⟨KeyCode.backspace, false⟩ errFetch 0) =
      some ({ traceA2.backspace with show_autocomplete := false,
                                     autocomplete_suggestions := [] }, none) :=
  ⟨(C3_corrected_shrink c3App false errFetch 0 rfl rfl).2.1,
   (C3_corrected_shrink traceA2 false errFetch 0 rfl rfl).1 (by decide)⟩

/-- C6: a submission (Enter with a non-empty buffer, from Normal mode with
the Search pane focused, or from Insert mode without visible suggestions)
invokes the fetch collaborator on the full buffer content via `doSubmit`
(which first enters the transient Loading phase); on success the buffer is
cleared, the cursor reset to 0, the query pushed to the front of the history,
and the phase becomes Display; on failure the phase becomes Error carrying
the failure message. -/
theorem C6_submission_flow (a : App)
    (fetch : List Char → Except (List Char) WeatherData) (now : Nat)
    (hstate : a.state = AppState.Input) (hne : a.input ≠ []) :
    (a.mode = Mode.Normal → a.focused_pane = FocusedPane.Search →
      step a (UiEvent.key ⟨KeyCode.enter, false⟩ fetch now) =
        some (doSubmit a fetch now, none)) ∧
    (a.mode = Mode.Insert → a.show_autocomplete = false →
      step a (UiEvent.key ⟨KeyCode.enter, false⟩ fetch now) =
        some (doSubmit a fetch now, none)) ∧
    (∀ d, fetch a.input = Except.ok d →
      doSubmit a fetch now =
        { a with state := AppState.Display, weather_data := some d,
                 search_history :=
                   addToHistoryList a.search_history a.input now,
                 input := [], cursor_position := 0, mode := Mode.Normal } ∧
      (doSubmit a fetch now).search_history.head? = some ⟨a.input, now⟩) ∧
    (∀ e, fetch a.input = Except.error e →
      doSubmit a fetch now =
        { a with state := AppState.Error, error_message := e }) := by
  refine ⟨fun hmode hfocus => enter_submits_normal a fetch now hstate hmode hfocus hne,
          fun hmode hshow => enter_submits_insert a fetch now hstate hmode hshow hne,
          fun d hf => ⟨doSubmit_ok a fetch now d hf, ?_⟩,
          fun e hf => doSubmit_error a fetch now e hf⟩
  rw [doSubmit_ok a fetch now d hf]
  exact addToHistoryList_head a.search_history a.input now

def okData : WeatherData :=
  ⟨sampleLoc, ⟨⟨0, 0, 0, 0, 0, 0, 0⟩, ⟨[], [], []⟩⟩⟩

def okFetch : List Char → Except (List Char) WeatherData :=
  fun _ => Except.ok okData

def subApp : App := { App.new [] with input := ['P', 'a', 'r'] }

theorem C6_witness :
    step subApp (UiEvent.key ⟨KeyCode.enter, false⟩ okFetch 7) =
      some (doSubmit subApp okFetch 7, none) ∧
    (doSubmit subApp okFetch 7).search_history.head? =
      some ⟨['P', 'a', 'r'], 7⟩ :=
  ⟨(C6_submission_flow subApp okFetch 7 rfl (by decide)).1 rfl rfl,
   ((C6_submission_flow subApp okFetch 7 rfl (by decide)).2.2.1 okData rfl).2⟩

def errMsgFetch : List Char → Except (List Char) WeatherData :=
  fun _ => Except.error ['x']

/-- C10: when a submission's fetch fails, the step changes only the phase
(to Error) and the error message: the buffer content, cursor position,
focused pane, search history — and every other component of the state — are
exactly as they were before the submission, so the typed query survives for
a manual retry.  (The Insert-mode hypothesis that the visibility flag is
already false holds whenever a submission actually happens from a reachable
state, since visible implies non-empty suggestions, and Enter with visible
non-empty suggestions accepts instead of submitting.) -/
theorem C10_failure_preserves_input (a : App)
    (fetch : List Char → Except (List Char) WeatherData) (now : Nat)
    (e : List Char) (hstate : a.state = AppState.Input) (hne : a.input ≠ [])
    (hf : fetch a.input = Except.error e) :
    (a.mode = Mode.Normal → a.focused_pane = FocusedPane.Search →
      step a (UiEvent.key ⟨KeyCode.enter, false⟩ fetch now) =
        some ({ a with state := AppState.Error, error_message := e }, none)) ∧
    (a.mode = Mode.Insert → a.show_autocomplete = false →
      step a (UiEvent.key ⟨KeyCode.enter, false⟩ fetch now) =
        some ({ a with state := AppState.Error, error_message := e }, none)) := by
  constructor
  · intro hmode hfocus
    rw [enter_submits_normal a fetch now hstate hmode hfocus hne,
        doSubmit_error a fetch now e hf]
  · intro hmode hshow
    rw [enter_submits_insert a fetch now hstate hmode hshow hne,
        doSubmit_error a fetch now e hf]

theorem C10_witness :
    step subApp (UiEvent.key ⟨KeyCode.enter, false⟩ errMsgFetch 7) =
      some ({ subApp with state := AppState.Error, error_message := ['x'] },
            none) :=
  (C10_failure_preserves_input subApp errMsgFetch 7 ['x'] rfl (by decide)
    rfl).1 rfl rfl

/-! Helper lemmas about the history ring. -/

theorem removeFirst_sublist (q : List Char) (h : List HistoryEntry) :
    List.Sublist (removeFirst q h) h := by
  induction h with
  | nil => simp [removeFirst]
  | cons e rest ih =>
      unfold removeFirst
      split
      · exact List.sublist_cons_self e rest
      · exact List.Sublist.cons₂ e ih

theorem removeFirst_queries_sublist (q : List Char) (h : List HistoryEntry) :
    List.Sublist ((removeFirst q h).map HistoryEntry.query)
      (h.map HistoryEntry.query) :=
  List.Sublist.map _ (removeFirst_sublist q h)

theorem notMem_removeFirst (q : List Char) (h : List HistoryEntry)
    (hn : (h.map HistoryEntry.query).Nodup) :
    q ∉ (removeFirst q h).map HistoryEntry.query := by
  induction h with
  | nil => simp [removeFirst]
  | cons e rest ih =>
      rw [List.map_cons] at hn
      obtain ⟨hnot, hrest⟩ := List.nodup_cons.mp hn
      unfold removeFirst
      split
      · next heq =>
          rw [← heq]
          exact hnot
      · next hne =>
          rw [List.map_cons]
          intro hmem
          rcases List.mem_cons.mp hmem with h1 | h2
          · exact hne h1.symm
          · exact ih hrest h2

theorem addToHistoryList_tail_sublist (h : List HistoryEntry) (q : List Char)
    (t : Nat) : List.Sublist (addToHistoryList h q t).tail h := by
  refine List.Sublist.trans ?_ (removeFirst_sublist q h)
  unfold addToHistoryList
  dsimp only
  split
  · show List.Sublist ((removeFirst q h).take 49) (removeFirst q h)
    exact List.take_sublist 49 _
  · exact List.Sublist.refl _

theorem addToHistoryList_nodup (h : List HistoryEntry) (q : List Char)
    (t : Nat) (hn : (h.map HistoryEntry.query).Nodup) :
    ((addToHistoryList h q t).map HistoryEntry.query).Nodup := by
  have hLn : ((removeFirst q h).map HistoryEntry.query).Nodup :=
    List.Nodup.sublist (removeFirst_queries_sublist q h) hn
  have hq : q ∉ (removeFirst q h).map HistoryEntry.query :=
    notMem_removeFirst q h hn
  unfold addToHistoryList
  dsimp only
  split
  · show ((HistoryEntry.mk q t :: (removeFirst q h).take 49).map
        HistoryEntry.query).Nodup
    rw [List.map_cons]
    refine List.nodup_cons.mpr ⟨?_, ?_⟩
    · intro hmem
      exact hq ((List.Sublist.map HistoryEntry.query
        (List.take_sublist 49 _)).subset hmem)
    · exact List.Nodup.sublist
        (List.Sublist.map HistoryEntry.query (List.take_sublist 49 _)) hLn
  · rw [List.map_cons]
    exact List.nodup_cons.mpr ⟨hq, hLn⟩

theorem addToHistoryList_countP (h : List HistoryEntry) (q : List Char)
    (t : Nat) (hn : (h.map HistoryEntry.query).Nodup) :
    (addToHistoryList h q t).countP (fun e => e.query == q) = 1 := by
  have hq : q ∉ (removeFirst q h).map HistoryEntry.query :=
    notMem_removeFirst q h hn
  have hzero : ∀ L' : List HistoryEntry,
      List.Sublist L' (removeFirst q h) →
      L'.countP (fun e => e.query == q) = 0 := by
    intro L' hsub
    refine List.countP_eq_zero.mpr ?_
    intro e he hbe
    have heq : e.query = q := by simpa using hbe
    have hmem2 : e.query ∈ (removeFirst q h).map HistoryEntry.query :=
      List.mem_map_of_mem HistoryEntry.query (hsub.subset he)
    rw [heq] at hmem2
    exact hq hmem2
  unfold addToHistoryList
  dsimp only
  split
  · show List.countP (fun e => e.query == q)
        (HistoryEntry.mk q t :: (removeFirst q h).take 49) = 1
    rw [List.countP_cons, hzero _ (List.take_sublist 49 _)]
    simp
  · rw [List.countP_cons, hzero _ (List.Sublist.refl _)]
    simp

theorem addToHistoryList_length (h : List HistoryEntry) (q : List Char)
    (t : Nat) : (addToHistoryList h q t).length ≤ 50 := by
  unfold addToHistoryList
  dsimp only
  split
  · simp
  · next hng =>
      simp only [List.length_cons, gt_iff_lt, not_lt] at hng ⊢
      omega

set_option maxRecDepth 100000 in
/-- C7: record (`add_to_history`) removes any existing entry with the same
query, inserts the new entry at the front, and truncates to at most 50
entries.  Consequently, starting from a well-formed history (pairwise
distinct queries, at most 50 entries): the new entry sits at the front,
the queries stay pairwise distinct, exactly one entry carries the recorded
query, the length stays at most 50, and the tail preserves the previous
most-recent-first order (it is a sublist of the previous list).  Recording
51 distinct queries starting from the empty history leaves exactly 50
entries, with the first-recorded (oldest) query evicted. -/
theorem C7_history_record :
    (∀ (h : List HistoryEntry) (q : List Char) (t : Nat),
      (h.map HistoryEntry.query).Nodup → h.length ≤ 50 →
      (addToHistoryList h q t).head? = some ⟨q, t⟩ ∧
      ((addToHistoryList h q t).map HistoryEntry.query).Nodup ∧
      (addToHistoryList h q t).length ≤ 50 ∧
      (addToHistoryList h q t).countP (fun e => e.query == q) = 1 ∧
      List.Sublist (addToHistoryList h q t).tail h) ∧
    ((List.range 51).foldl
        (fun hh n => addToHistoryList hh [Char.ofNat (48 + n)] n) []).length
      = 50 ∧
    [Char.ofNat 48] ∉
      ((List.range 51).foldl
          (fun hh n => addToHistoryList hh [Char.ofNat (48 + n)] n) []).map
        HistoryEntry.query := by
  refine ⟨fun h q t hn _hlen =>
    ⟨addToHistoryList_head h q t,
     addToHistoryList_nodup h q t hn,
     addToHistoryList_length h q t,
     addToHistoryList_countP h q t hn,
     addToHistoryList_tail_sublist h q t⟩, by decide, by decide⟩

theorem C7_witness :
    (addToHistoryList [⟨['P'], 1⟩] ['P'] 2).head? = some ⟨['P'], 2⟩ ∧
    (addToHistoryList [⟨['P'], 1⟩] ['P'] 2).countP
      (fun e => e.query == ['P']) = 1 :=
  ⟨(C7_history_record.1 [⟨['P'], 1⟩] ['P'] 2 (by decide) (by decide)).1,
   (C7_history_record.1 [⟨['P'], 1⟩] ['P'] 2 (by decide) (by decide)).2.2.2.1⟩

end WeatherTui
